import Mathlib

/-!
Shallow embedding of src/construct_atlas_app.py: the knowledge-base loader,
the module-level initialisation, and the data derivations behind the two
pages (Explore Constructs, Compare Models). Parsed YAML documents are
modelled by the inductive type Yaml; Python dictionaries are association
lists in insertion order; a Python exception or an st.stop abort is
modelled by Option.none. Parts of the Model layer that the specification
describes but that have no code under src (component vectors, construct
search, the overlap advisor) are modelled from the specification and are
marked as such on their definitions.
-/

namespace ConstructAtlas

/-- A parsed YAML value. Mapping keys in this knowledge base are strings;
lists and mappings keep document order. -/
inductive Yaml where
  | ynull : Yaml
  | ybool : Bool → Yaml
  | yint : Int → Yaml
  | ystr : String → Yaml
  | ylist : List Yaml → Yaml
  | ymap : List (String × Yaml) → Yaml

/-- Python dict lookup over an association list. Keys in a dict are unique,
so returning the first match agrees with dict semantics. -/
def assoc {α : Type} (k : String) : List (String × α) → Option α
  | [] => none
  | (k₁, v) :: rest => if k₁ = k then some v else assoc k rest

/-- isinstance(x, dict). -/
def Yaml.isMap : Yaml → Bool
  | Yaml.ymap _ => true
  | _ => false

/-- d.get(k, default) on a value known to be a dict, given its items. -/
def dictGet (kvs : List (String × Yaml)) (k : String) (d : Yaml) : Yaml :=
  (assoc k kvs).getD d

/-- o.get(k, default) on an arbitrary value: raises AttributeError (none)
when o is not a dict. -/
def pyGet (o : Yaml) (k : String) (d : Yaml) : Option Yaml :=
  match o with
  | Yaml.ymap kvs => some (dictGet kvs k d)
  | _ => none

/-- The filesystem seen by the loader: each entry maps a path to the parse
result of the file stored there; a path with no entry does not exist. (The
claims settled here concern existence and shape, so parse results are given
directly.) -/
abbrev Fs : Type := List (String × Yaml)

/-- load_kb, src lines 14 to 20: try each candidate path in order; for the
FIRST path that exists, return the parsed data together with the path used,
whatever the parsed data is; return nothing when no candidate exists. -/
def load_kb (fs : Fs) : List String → Option (Yaml × String)
  | [] => none
  | p :: ps =>
    match assoc p fs with
    | some d => some (d, p)
    | none => load_kb fs ps

/-- Src lines 22 to 27: the module runs load_kb and then aborts (st.error
followed by st.stop, modelled by none) when the result is None or is not a
dict; otherwise the loaded mapping and its path flow on. -/
def loadOutcome (fs : Fs) (paths : List String) : Option (Yaml × String) :=
  match load_kb fs paths with
  | some (d, p) => if d.isMap then some (d, p) else none
  | none => none

/-- Refinement reference for claim C2, following the words of the spec:
return the parsed structure from the first location that both exists and
parses as a mapping, with the location used; signal failure (none) when no
such location exists. -/
def specLoadKb (fs : Fs) : List String → Option (Yaml × String)
  | [] => none
  | p :: ps =>
    match assoc p fs with
    | some d => if d.isMap then some (d, p) else specLoadKb fs ps
    | none => specLoadKb fs ps

/-- The module-level views of the loaded document, src lines 34 to 36. -/
structure LoadedKb where
  taxon : Yaml
  constructs : Yaml
  models : Yaml

/-- Src lines 34 to 36 on the items of the loaded mapping:
TAXON is KB.get with default empty list, CONSTRUCTS and MODELS are KB.get
with default empty dict. No further validation is performed. -/
def initKb (kvs : List (String × Yaml)) : LoadedKb :=
  { taxon := dictGet kvs "components_taxonomy" (Yaml.ylist [])
    constructs := dictGet kvs "constructs" (Yaml.ymap [])
    models := dictGet kvs "models" (Yaml.ymap []) }

/-- Src lines 24 to 36: the guard on the parsed document followed by the
module-level views. A document that is None or not a mapping aborts (none);
every mapping proceeds. -/
def appStart (kb : Yaml) : Option LoadedKb :=
  match kb with
  | Yaml.ymap kvs => some (initKb kvs)
  | _ => none

/-- Src line 105 condition for one model record v, for a chosen domain:
domain == "all" or v.get("domain", "general") == domain. The Python or
short-circuits, so v.get is not evaluated when domain is "all"; comparing a
stored non-string value against the domain string yields False. -/
def domainKeep (domain : String) (v : Yaml) : Option Bool :=
  if domain = "all" then some true
  else
    (pyGet v "domain" (Yaml.ystr "general")).map fun dv =>
      match dv with
      | Yaml.ystr s => decide (s = domain)
      | _ => false

/-- Src line 106: models_filtered, the comprehension filtering the items of
MODELS by domain, in document order. -/
def filterByDomain (domain : String) : List (String × Yaml) → Option (List (String × Yaml))
  | [] => some []
  | (k, v) :: rest =>
    match domainKeep domain v, filterByDomain domain rest with
    | some b, some tail => some (if b then (k, v) :: tail else tail)
    | _, _ => none

/-- Src line 114: the fixed ordered dimension list of the comparison page. -/
def dimsList : List String :=
  ["level_of_analysis", "conflict", "emotion_role", "cognitive_function"]

/-- Src lines 115 to 120: the display names of the four dimensions (the
source dict nice is only ever indexed by members of dimsList; other inputs
never occur). -/
def niceName : String → String
  | "level_of_analysis" => "Level of Analysis"
  | "conflict" => "Conflict"
  | "emotion_role" => "Emotion Role"
  | "cognitive_function" => "Cognition Function"
  | d => d

/-- A Python-hashable value, usable as a dict key. Lists and dicts are
unhashable and raise TypeError when used as keys. -/
inductive Scalar where
  | snull : Scalar
  | sbool : Bool → Scalar
  | sint : Int → Scalar
  | sstr : String → Scalar
deriving DecidableEq

/-- Using a Yaml value as a dict key: scalars are hashable, lists and
mappings raise TypeError (none). -/
def toKey : Yaml → Option Scalar
  | Yaml.ynull => some Scalar.snull
  | Yaml.ybool b => some (Scalar.sbool b)
  | Yaml.yint n => some (Scalar.sint n)
  | Yaml.ystr s => some (Scalar.sstr s)
  | _ => none

/-- Python dict assignment d[k] = v: an existing key keeps its position and
receives the new value, a new key is appended in insertion order. -/
def dictInsert (k : Scalar) (v : List Yaml) :
    List (Scalar × List Yaml) → List (Scalar × List Yaml)
  | [] => [(k, v)]
  | (k₁, v₁) :: rest =>
    if k₁ = k then (k, v) :: rest else (k₁, v₁) :: dictInsert k v rest

/-- Src line 125, the column comprehension: dd.get(d, dash) for each listed
dimension; raises (none) when dd is not a dict. -/
def colFor (dd : Yaml) : List String → Option (List Yaml)
  | [] => some []
  | d :: ds =>
    match pyGet dd d (Yaml.ystr "—"), colFor dd ds with
    | some v, some vs => some (v :: vs)
    | _, _ => none

/-- Src lines 123 to 125 for one selected key k with record m: read the
dimensions dict, build the column of dimension values, and pair it with
the hashable column header m.get("label", k). -/
def modelColumn (k : String) (m : Yaml) : Option (Scalar × List Yaml) :=
  match pyGet m "dimensions" (Yaml.ymap []) with
  | none => none
  | some dd =>
    match colFor dd dimsList with
    | none => none
    | some col =>
      match pyGet m "label" (Yaml.ystr k) with
      | none => none
      | some lbl =>
        match toKey lbl with
        | none => none
        | some key => some (key, col)

/-- Src lines 122 to 125, one loop iteration: models_filtered[k] (KeyError
aborts), then the column assignment data[label] = column. -/
def tableStep (models : List (String × Yaml)) (data : List (Scalar × List Yaml))
    (k : String) : Option (List (Scalar × List Yaml)) :=
  match assoc k models with
  | none => none
  | some m =>
    match modelColumn k m with
    | none => none
    | some kc => some (dictInsert kc.1 kc.2 data)

/-- The loop of src lines 122 to 125 over the selected keys in order. -/
def tableFold (models : List (String × Yaml)) (data : List (Scalar × List Yaml)) :
    List String → Option (List (Scalar × List Yaml))
  | [] => some data
  | k :: ks =>
    match tableStep models data k with
    | none => none
    | some d₁ => tableFold models d₁ ks

/-- Src line 121: the initial Dimension column with the display names. -/
def dimColumn : Scalar × List Yaml :=
  (Scalar.sstr "Dimension", dimsList.map fun d => Yaml.ystr (niceName d))

/-- Src lines 121 to 126: the comparison table as a Python dict from column
header to column, starting from the Dimension column and folding the
selected keys in order. -/
def modelTable (models : List (String × Yaml)) (sel : List String) :
    Option (List (Scalar × List Yaml)) :=
  tableFold models [dimColumn] sel

/-- The columns the selected keys contribute, one per key in selection
order, with no dict collapsing; used to state the amended claim C7. -/
def selColumns (models : List (String × Yaml)) :
    List String → Option (List (Scalar × List Yaml))
  | [] => some []
  | k :: ks =>
    match assoc k models with
    | none => none
    | some m =>
      match modelColumn k m with
      | none => none
      | some kc =>
        match selColumns models ks with
        | none => none
        | some rest => some (kc :: rest)

/-- Modelled from the spec: src contains no componentVector code; sections
3 and 4.2 of the spec describe the strength-resolution rule. A string
resolves case-insensitively through low to 1, medium to 2, strong to 3,
and any other string to 0; an integer passes through when it lies in
[0,3] and resolves to 0 otherwise; every other value resolves to 0.
Lowercasing is per character. -/
def strengthLevel (v : Yaml) : Nat :=
  match v with
  | Yaml.ystr s =>
    if s.data.map Char.toLower = "low".data then 1
    else if s.data.map Char.toLower = "medium".data then 2
    else if s.data.map Char.toLower = "strong".data then 3
    else 0
  | Yaml.yint n => if 0 ≤ n ∧ n ≤ 3 then n.toNat else 0
  | _ => 0

/-- Modelled from the spec: the components mapping of a construct record;
a record without a components mapping contributes no component values. -/
def componentsOf (c : Yaml) : List (String × Yaml) :=
  match c with
  | Yaml.ymap kvs =>
    match assoc "components" kvs with
    | some (Yaml.ymap comps) => comps
    | _ => []
  | _ => []

/-- Modelled from the spec: src contains no componentVector code; spec
section 4.2 describes it. One integer per taxonomy dimension, in taxonomy
order, resolved from the components mapping of the construct; a dimension
missing from the mapping resolves to 0. -/
def componentVector (taxon : List String) (c : Yaml) : List Nat :=
  taxon.map fun d =>
    match assoc d (componentsOf c) with
    | some v => strengthLevel v
    | none => 0

/-- Modelled from the spec: componentVector at the knowledge-base level; a
key absent from the constructs collection signals NotFound (none), per
spec section 4.2. -/
def componentVectorKb (taxon : List String) (constructs : List (String × Yaml))
    (key : String) : Option (List Nat) :=
  (assoc key constructs).map (componentVector taxon)

/-- Modelled from the spec: whether a needle is an initial run of a hay
sequence of characters. -/
def leadMatch : List Char → List Char → Bool
  | [], _ => true
  | _ :: _, [] => false
  | c :: cs, h :: hs => c == h && leadMatch cs hs

/-- Modelled from the spec: whether a needle occurs contiguously somewhere
in a hay sequence of characters. -/
def hasSub (needle : List Char) : List Char → Bool
  | [] => needle.isEmpty
  | h :: hs => leadMatch needle (h :: hs) || hasSub needle hs

/-- Modelled from the spec: case-insensitive substring test, per-character
lowercasing on both sides. -/
def lcContains (hay q : String) : Bool :=
  hasSub (q.data.map Char.toLower) (hay.data.map Char.toLower)

/-- Modelled from the spec: the display label of a construct record,
defaulting to the key (spec section 3). -/
def constructLabel (key : String) (c : Yaml) : String :=
  match c with
  | Yaml.ymap kvs =>
    match assoc "label" kvs with
    | some (Yaml.ystr s) => s
    | _ => key
  | _ => key

/-- Modelled from the spec: the synonym strings of a construct record. -/
def synonymsOf (c : Yaml) : List String :=
  match c with
  | Yaml.ymap kvs =>
    match assoc "synonyms" kvs with
    | some (Yaml.ylist xs) =>
      xs.filterMap fun v =>
        match v with
        | Yaml.ystr s => some s
        | _ => none
    | _ => []
  | _ => []

/-- Modelled from the spec: whether the label or some synonym of a
construct record contains the query as a case-insensitive substring. -/
def matchesQuery (q key : String) (c : Yaml) : Bool :=
  lcContains (constructLabel key c) q || (synonymsOf c).any fun s => lcContains s q

/-- Spec section 4.2: the construct keys in document order. -/
def allConstructKeys (constructs : List (String × Yaml)) : List String :=
  constructs.map Prod.fst

/-- Modelled from the spec: src contains no searchConstructs code; spec
section 4.2 describes it as the pure order-preserving filter of the
construct keys by label or synonym match. -/
def searchConstructs (constructs : List (String × Yaml)) (q : String) : List String :=
  (constructs.filter fun kc => matchesQuery q kc.1 kc.2).map Prod.fst

/-- The key-level match predicate induced by the constructs collection,
used to state claim C5 as a filter over allConstructKeys. -/
def keyMatches (constructs : List (String × Yaml)) (q k : String) : Bool :=
  match assoc k constructs with
  | some c => matchesQuery q k c
  | none => false

/-- Modelled from the spec: the message of the self-control and grit rule
of the overlap advisor (src contains no advisor code; the text is
representative, spec section 4.3 fixes only the pairs). -/
def jangleMsgSCGrit : String :=
  "Jangle risk: self-control and grit often name the same underlying construct."

/-- Modelled from the spec: the message of the self-control and
self-regulation rule of the overlap advisor. -/
def jangleMsgSCSR : String :=
  "Jangle risk: self-control overlaps strongly with self-regulation."

/-- Modelled from the spec: the message of the executive-function and
self-control rule of the overlap advisor. -/
def jangleMsgEFSC : String :=
  "Jangle risk: executive-function measures overlap with self-control."

/-- Modelled from the spec: the fixed ordered rule set of the overlap
advisor, one (pair, message) entry per rule, in declaration order. -/
def overlapRules : List ((String × String) × String) :=
  [(("self-control", "grit"), jangleMsgSCGrit),
   (("self-control", "self-regulation"), jangleMsgSCSR),
   (("executive-function", "self-control"), jangleMsgEFSC)]

/-- Modelled from the spec: src contains no advisor code; spec section 4.3
describes three hard-coded pair-presence rules evaluated independently,
emitting their messages in rule-declaration order. -/
def overlapWarnings (sel : List String) : List String :=
  (if sel.contains "self-control" && sel.contains "grit" then [jangleMsgSCGrit] else []) ++
  ((if sel.contains "self-control" && sel.contains "self-regulation"
      then [jangleMsgSCSR] else []) ++
   (if sel.contains "executive-function" && sel.contains "self-control"
      then [jangleMsgEFSC] else []))

/-- The information show_construct_card (src lines 41 to 71) extracts from
a construct record; absent optional fields read as null via c.get. The
markdown and HTML formatting around these reads is presentation and out of
scope per the spec. -/
structure Card where
  label : Yaml
  synonyms : Yaml
  definition : Yaml
  components : Yaml
  theories : Yaml
  mechanisms : Yaml
  measures : Yaml
  citations : Yaml
  notes : Yaml

/-- Src lines 41 to 71: the reads show_construct_card performs on the
record; a record that is not a dict raises on the first c.get (none). -/
def showConstructCard (key : String) (c : Yaml) : Option Card :=
  match c with
  | Yaml.ymap kvs => some
      { label := dictGet kvs "label" (Yaml.ystr key)
        synonyms := dictGet kvs "synonyms" Yaml.ynull
        definition := dictGet kvs "definition" (Yaml.ystr "—")
        components := dictGet kvs "components" Yaml.ynull
        theories := dictGet kvs "theories" Yaml.ynull
        mechanisms := dictGet kvs "mechanisms" Yaml.ynull
        measures := dictGet kvs "measures" Yaml.ynull
        citations := dictGet kvs "citations" Yaml.ynull
        notes := dictGet kvs "notes" Yaml.ynull }
  | _ => none

/-- Src lines 77 to 79: the taxonomy chips. A falsy TAXON (null, empty
containers, false, zero) renders no chips; a truthy list renders its items,
a truthy dict its keys, a truthy string its characters; a truthy
non-iterable value raises (none). -/
def taxonChips (t : Yaml) : Option (List Yaml) :=
  match t with
  | Yaml.ynull => some []
  | Yaml.ybool b => if b then none else some []
  | Yaml.yint n => if n = 0 then some [] else none
  | Yaml.ystr s => some (s.data.map fun ch => Yaml.ystr (String.mk [ch]))
  | Yaml.ylist xs => some xs
  | Yaml.ymap kvs => some (kvs.map fun kv => Yaml.ystr kv.1)

/-- One row of the browse table, src lines 88 to 94. The label is read
through c.get with the key as default; the later sort_values call orders
rows by label, so the modelled rows require string labels (the mixed-type
orderings pandas would otherwise attempt are out of scope). -/
structure BrowseRow where
  key : String
  label : String
  defn : Yaml
  comps : String

/-- Src lines 89 to 94: one appended row; reads raise on a record or
components value that is not a dict. -/
def browseRowOf (k : String) (c : Yaml) : Option BrowseRow :=
  match c with
  | Yaml.ymap kvs =>
    match dictGet kvs "label" (Yaml.ystr k) with
    | Yaml.ystr lbl =>
      match dictGet kvs "components" (Yaml.ymap []) with
      | Yaml.ymap comps =>
        some { key := k, label := lbl, defn := dictGet kvs "definition" (Yaml.ystr ""),
               comps := String.intercalate ", " (comps.map Prod.fst) }
      | _ => none
    | _ => none
  | _ => none

/-- Src lines 87 to 94: the rows of the browse table in document order. -/
def browseRows : List (String × Yaml) → Option (List BrowseRow)
  | [] => some []
  | (k, c) :: rest =>
    match browseRowOf k c, browseRows rest with
    | some r, some rs => some (r :: rs)
    | _, _ => none

/-- Src line 95: the browse rows ordered by label (sort_values). -/
def browseTable (constructs : List (String × Yaml)) : Option (List BrowseRow) :=
  (browseRows constructs).map (List.insertionSort fun a b => a.label ≤ b.label)

/-- What the Explore Constructs page derives from the loaded views, src
lines 73 to 96. -/
structure ExploreOut where
  chips : List Yaml
  keysSorted : List String
  card : Card
  table : List BrowseRow

/-- Src lines 73 to 96: taxonomy chips, the sorted key list of the select
box, the card of the picked construct (KeyError on an absent pick raises),
and the browse table. -/
def pageExplore (kb : LoadedKb) (pick : String) : Option ExploreOut :=
  match taxonChips kb.taxon with
  | none => none
  | some chips =>
    match kb.constructs with
    | Yaml.ymap kvs =>
      match assoc pick kvs with
      | none => none
      | some c =>
        match showConstructCard pick c with
        | none => none
        | some card =>
          match browseTable kvs with
          | none => none
          | some table =>
            some { chips := chips
                   keysSorted := List.insertionSort (fun a b : String => a ≤ b)
                     (kvs.map Prod.fst)
                   card := card
                   table := table }
    | _ => none

/-- The text a table cell contributes to the CSV export; nested values do
not occur in comparison tables and render empty. -/
def yamlCell : Yaml → String
  | Yaml.ynull => ""
  | Yaml.ybool b => if b then "True" else "False"
  | Yaml.yint n => toString n
  | Yaml.ystr s => s
  | Yaml.ylist _ => ""
  | Yaml.ymap _ => ""

/-- The text a column header contributes to the CSV export. -/
def keyCell : Scalar → String
  | Scalar.snull => ""
  | Scalar.sbool b => if b then "True" else "False"
  | Scalar.sint n => toString n
  | Scalar.sstr s => s

/-- Src line 129: the CSV export of the comparison table, header row then
one row per dimension, comma separated. -/
def csvOfTable (cols : List (Scalar × List Yaml)) : String :=
  String.intercalate "\n"
    (String.intercalate "," (cols.map fun c => keyCell c.1) ::
      (List.range dimsList.length).map fun i =>
        String.intercalate "," (cols.map fun c => yamlCell (c.2.getD i Yaml.ynull)))

/-- Src lines 133 to 137: the label and key_papers reads of the references
expanders, one per selected key in order. -/
def refsFor (filtered : List (String × Yaml)) : List String → Option (List (Yaml × Yaml))
  | [] => some []
  | k :: ks =>
    match assoc k filtered with
    | none => none
    | some m =>
      match pyGet m "label" (Yaml.ystr k), pyGet m "key_papers" (Yaml.ylist []),
          refsFor filtered ks with
      | some lbl, some kp, some rest => some ((lbl, kp) :: rest)
      | _, _, _ => none

/-- What the Compare Models page derives, src lines 98 to 137: the early
return when the models view is falsy, the early return on an empty
selection, or the filtered models with the table, its CSV export and the
reference reads. -/
inductive CompareOut where
  | noModels : CompareOut
  | emptySelection : List (String × Yaml) → CompareOut
  | comparison : List (String × Yaml) → List (Scalar × List Yaml) → String →
      List (Yaml × Yaml) → CompareOut

/-- Src lines 98 to 137. A falsy MODELS (null, false, zero, empty string,
list or dict) takes the early return of line 101; a truthy non-dict raises
at MODELS.items (none). -/
def pageCompare (kb : LoadedKb) (domain : String) (sel : List String) : Option CompareOut :=
  match kb.models with
  | Yaml.ynull => some CompareOut.noModels
  | Yaml.ybool b => if b then none else some CompareOut.noModels
  | Yaml.yint n => if n = 0 then some CompareOut.noModels else none
  | Yaml.ystr s => if s.isEmpty then some CompareOut.noModels else none
  | Yaml.ylist xs => if xs.isEmpty then some CompareOut.noModels else none
  | Yaml.ymap mkvs =>
    if mkvs.isEmpty then some CompareOut.noModels
    else
      match filterByDomain domain mkvs with
      | none => none
      | some filtered =>
        if sel.isEmpty then some (CompareOut.emptySelection filtered)
        else
          match modelTable filtered sel with
          | none => none
          | some cols =>
            match refsFor filtered sel with
            | none => none
            | some refs =>
              some (CompareOut.comparison filtered cols (csvOfTable cols) refs)

/-- A user interaction: picking a construct on the explore tab, or choosing
a domain filter and a model selection on the compare tab. -/
inductive UserAction where
  | explore : String → UserAction
  | compare : String → List String → UserAction

/-- What one interaction renders; crashed stands for a raised exception. -/
inductive PageView where
  | exploreView : ExploreOut → PageView
  | compareView : CompareOut → PageView
  | crashed : PageView

/-- One user interaction: the source pages only read the module-level
views TAXON, CONSTRUCTS and MODELS (src lines 73 to 137 contain no
assignment to them and no in-place mutation of them), so the translation
returns the loaded state unchanged beside the rendered output. -/
def runAction (kb : LoadedKb) (a : UserAction) : PageView × LoadedKb :=
  match a with
  | UserAction.explore pick =>
    (match pageExplore kb pick with
     | some o => PageView.exploreView o
     | none => PageView.crashed, kb)
  | UserAction.compare domain sel =>
    (match pageCompare kb domain sel with
     | some o => PageView.compareView o
     | none => PageView.crashed, kb)

/-- The loaded state after a sequence of user interactions. -/
def runSession (kb : LoadedKb) : List UserAction → LoadedKb
  | [] => kb
  | a :: rest => runSession (runAction kb a).2 rest

end ConstructAtlas

namespace ConstructAtlas

/-- Claim C2 counterexample input: the first candidate path exists but holds
a YAML list, the second exists and holds a mapping. -/
def fsA : Fs := [("app/constructs.yaml", Yaml.ylist []), ("constructs.yaml", Yaml.ymap [])]

/-- The candidate paths for the claim C2 counterexample. -/
def pathsA : List String := ["app/constructs.yaml", "constructs.yaml"]

/-- Claim C2 counterexample: when the first existing candidate parses to a
non-mapping and a later candidate holds a mapping, the code aborts while
the spec-described loader would return the later candidate; the two
disagree at this concrete input, so the loader does not skip an existing
non-mapping candidate as the claim states. -/
theorem loadOutcome_differs_from_specLoadKb :
    loadOutcome fsA pathsA = none ∧
    specLoadKb fsA pathsA = some (Yaml.ymap [], "constructs.yaml") ∧
    loadOutcome fsA pathsA ≠ specLoadKb fsA pathsA := by
  have h1 : loadOutcome fsA pathsA = none := rfl
  have h2 : specLoadKb fsA pathsA = some (Yaml.ymap [], "constructs.yaml") := rfl
  refine ⟨h1, h2, ?_⟩
  rw [h1, h2]
  exact fun h => Option.noConfusion h

/-- Claim C2 (amended): the loader returns the parsed content of the first
candidate path that exists, whatever that content is; the subsequent guard
aborts when no candidate exists or when that first existing content is not
a mapping. -/
theorem load_kb_first_existing (fs : Fs) (pre : List String) (p : String)
    (post : List String) (d : Yaml)
    (hpre : ∀ q ∈ pre, assoc q fs = none) (hp : assoc p fs = some d) :
    load_kb fs (pre ++ p :: post) = some (d, p) ∧
    loadOutcome fs (pre ++ p :: post) = (if d.isMap then some (d, p) else none) ∧
    (∀ paths : List String, (∀ q ∈ paths, assoc q fs = none) →
      loadOutcome fs paths = none) := by
  have h1 : load_kb fs (pre ++ p :: post) = some (d, p) := by
    induction pre with
    | nil => simp [load_kb, hp]
    | cons q qs ih =>
      have hq : assoc q fs = none := hpre q (by simp)
      have hrest : ∀ r ∈ qs, assoc r fs = none := fun r hr => hpre r (by simp [hr])
      simpa [load_kb, hq] using ih hrest
  refine ⟨h1, ?_, ?_⟩
  · rw [loadOutcome, h1]
  · intro paths hall
    have hnone : load_kb fs paths = none := by
      induction paths with
      | nil => rfl
      | cons q qs ih =>
        have hq : assoc q fs = none := hall q (by simp)
        have hrest : ∀ r ∈ qs, assoc r fs = none := fun r hr => hall r (by simp [hr])
        simp [load_kb, hq, ih hrest]
    rw [loadOutcome, hnone]

/-- Witness for the amended claim C2 at a concrete filesystem: one missing
candidate followed by an existing mapping candidate. -/
theorem load_kb_first_existing_witness :
    load_kb [("constructs.yaml", Yaml.ymap [])] ["app/constructs.yaml", "constructs.yaml"] =
      some (Yaml.ymap [], "constructs.yaml") ∧
    loadOutcome [("constructs.yaml", Yaml.ymap [])] ["app/constructs.yaml", "constructs.yaml"] =
      (if (Yaml.ymap []).isMap then some (Yaml.ymap [], "constructs.yaml") else none) :=
  have h := load_kb_first_existing [("constructs.yaml", Yaml.ymap [])] ["app/constructs.yaml"]
    "constructs.yaml" [] (Yaml.ymap [])
    (by intro q hq; simp at hq; subst hq; rfl) rfl
  ⟨h.1, h.2.1⟩

/-- Claim C1 counterexample: a parsed document that is a mapping with no
constructs key does not abort; the module proceeds, with the constructs
view defaulting to the empty mapping, contradicting the claimed
SchemaInvalid signal. -/
theorem appStart_empty_mapping_proceeds :
    appStart (Yaml.ymap []) =
      some { taxon := Yaml.ylist [], constructs := Yaml.ymap [], models := Yaml.ymap [] } := rfl

/-- Claim C1 (amended): loading a parsed document that is a mapping but
lacks a constructs key proceeds (the start does not abort) with an empty
constructs collection; no SchemaInvalid signal exists in the code. -/
theorem appStart_missing_constructs (kvs : List (String × Yaml))
    (h : assoc "constructs" kvs = none) :
    (appStart (Yaml.ymap kvs)).map LoadedKb.constructs = some (Yaml.ymap []) := by
  simp [appStart, initKb, dictGet, h]

/-- Witness for the amended claim C1 at a concrete document holding only a
schema_version key. -/
theorem appStart_missing_constructs_witness :
    (appStart (Yaml.ymap [("schema_version", Yaml.yint 1)])).map LoadedKb.constructs =
      some (Yaml.ymap []) :=
  appStart_missing_constructs [("schema_version", Yaml.yint 1)] rfl

/-- Claim C4 counterexample: for a document that omits components_taxonomy,
the taxonomy view is the EMPTY sequence, not a fixed non-trivial default;
loading does continue successfully. -/
theorem default_taxonomy_is_empty :
    (appStart (Yaml.ymap [("constructs", Yaml.ymap [])])).map LoadedKb.taxon =
      some (Yaml.ylist []) := rfl

/-- Claim C4 (amended): when the loaded document omits components_taxonomy,
the taxonomy view defaults to the empty sequence and loading continues
successfully. -/
theorem taxon_missing_defaults_empty (kvs : List (String × Yaml))
    (h : assoc "components_taxonomy" kvs = none) :
    (appStart (Yaml.ymap kvs)).map LoadedKb.taxon = some (Yaml.ylist []) := by
  simp [appStart, initKb, dictGet, h]

/-- Witness for the amended claim C4 at a concrete document holding only a
constructs mapping. -/
theorem taxon_missing_defaults_empty_witness :
    (appStart (Yaml.ymap [("constructs", Yaml.ymap [])])).map LoadedKb.taxon =
      some (Yaml.ylist []) :=
  taxon_missing_defaults_empty [("constructs", Yaml.ymap [])] rfl

/-- Claim C8: filtering the models by the sentinel domain value "all"
returns every model record unchanged, in order, whatever each record is. -/
theorem filterByDomain_all (models : List (String × Yaml)) :
    filterByDomain "all" models = some models := by
  induction models with
  | nil => rfl
  | cons kv rest ih =>
    obtain ⟨k, v⟩ := kv
    simp [filterByDomain, domainKeep, ih]

/-- Claim C10: a model record that is a mapping with no domain field is
treated as domain "general" by the filter: for a specific chosen domain
(not the sentinel "all"), the record is kept exactly when the chosen
domain is "general". -/
theorem filterByDomain_missing_domain (domain k : String) (kvs : List (String × Yaml))
    (rest : List (String × Yaml)) (hd : domain ≠ "all")
    (hk : assoc "domain" kvs = none) :
    filterByDomain domain ((k, Yaml.ymap kvs) :: rest) =
      (filterByDomain domain rest).map
        (fun tail => if domain = "general" then (k, Yaml.ymap kvs) :: tail else tail) := by
  have hkeep : domainKeep domain (Yaml.ymap kvs) = some (decide ("general" = domain)) := by
    simp [domainKeep, hd, pyGet, dictGet, hk]
  by_cases hg : domain = "general"
  · subst hg
    cases h : filterByDomain "general" rest with
    | none => simp [filterByDomain, hkeep, h]
    | some tail => simp [filterByDomain, hkeep, h]
  · have hg2 : ¬("general" = domain) := fun e => hg e.symm
    cases h : filterByDomain domain rest with
    | none => simp [filterByDomain, hkeep, h]
    | some tail => simp [filterByDomain, hkeep, h, hg, hg2]

/-- Witness for claim C10: a model record with no domain field is kept by
the "general" filter. -/
theorem filterByDomain_missing_domain_witness :
    filterByDomain "general" [("process-model", Yaml.ymap [])] =
      (filterByDomain "general" []).map
        (fun tail => if "general" = "general" then ("process-model", Yaml.ymap []) :: tail
          else tail) :=
  filterByDomain_missing_domain "general" "process-model" [] [] (by decide) rfl

/-- Assigning under a key that is not yet in the dict appends the entry. -/
theorem dictInsert_notMem (k : Scalar) (v : List Yaml) (data : List (Scalar × List Yaml))
    (h : k ∉ data.map Prod.fst) : dictInsert k v data = data ++ [(k, v)] := by
  induction data with
  | nil => rfl
  | cons kv rest ih =>
    obtain ⟨k₁, v₁⟩ := kv
    simp only [List.map_cons, List.mem_cons, not_or] at h
    simp only [dictInsert]
    rw [if_neg (fun e => h.1 e.symm), ih h.2]
    rfl

/-- On a dimensions value that is a mapping, the column comprehension never
raises and yields the looked-up value or the dash placeholder, one entry
per requested dimension in order. -/
theorem colFor_map (kvs : List (String × Yaml)) (ds : List String) :
    colFor (Yaml.ymap kvs) ds = some (ds.map fun d => dictGet kvs d (Yaml.ystr "—")) := by
  induction ds with
  | nil => rfl
  | cons d ds ih => simp [colFor, pyGet, ih]

/-- A successful column comprehension has one entry per requested
dimension. -/
theorem colFor_length (dd : Yaml) (ds : List String) (col : List Yaml)
    (h : colFor dd ds = some col) : col.length = ds.length := by
  induction ds generalizing col with
  | nil =>
    simp only [colFor, Option.some.injEq] at h
    subst h
    rfl
  | cons d ds ih =>
    simp only [colFor] at h
    split at h
    next v vs _ hvs =>
      cases h
      simp [ih vs hvs]
    next => exact absurd h (by simp)

/-- A successful model column has one entry per dimension of dimsList. -/
theorem modelColumn_length (k : String) (m : Yaml) (kc : Scalar × List Yaml)
    (h : modelColumn k m = some kc) : kc.2.length = dimsList.length := by
  simp only [modelColumn] at h
  split at h
  next => exact absurd h (by simp)
  next dd _ =>
    split at h
    next => exact absurd h (by simp)
    next col hcol =>
      split at h
      next => exact absurd h (by simp)
      next lbl _ =>
        split at h
        next => exact absurd h (by simp)
        next key _ =>
          cases h
          simpa using colFor_length dd dimsList col hcol

/-- selColumns yields one column per selected key. -/
theorem selColumns_length (models : List (String × Yaml)) (sel : List String)
    (cols : List (Scalar × List Yaml)) (h : selColumns models sel = some cols) :
    cols.length = sel.length := by
  induction sel generalizing cols with
  | nil =>
    simp only [selColumns, Option.some.injEq] at h
    subst h
    rfl
  | cons k ks ih =>
    simp only [selColumns] at h
    split at h
    next => exact absurd h (by simp)
    next m _ =>
      split at h
      next => exact absurd h (by simp)
      next kc _ =>
        split at h
        next => exact absurd h (by simp)
        next rest hrest =>
          cases h
          simp [ih rest hrest]

/-- Every column produced by selColumns has one entry per dimension. -/
theorem selColumns_colLengths (models : List (String × Yaml)) (sel : List String)
    (cols : List (Scalar × List Yaml)) (h : selColumns models sel = some cols) :
    ∀ kc ∈ cols, kc.2.length = dimsList.length := by
  induction sel generalizing cols with
  | nil =>
    simp only [selColumns, Option.some.injEq] at h
    subst h
    simp
  | cons k ks ih =>
    simp only [selColumns] at h
    split at h
    next => exact absurd h (by simp)
    next m _ =>
      split at h
      next => exact absurd h (by simp)
      next kc hkc =>
        split at h
        next => exact absurd h (by simp)
        next rest hrest =>
          cases h
          intro kc₂ hm2
          rcases List.mem_cons.mp hm2 with hc | hc
          · subst hc
            exact modelColumn_length k m kc₂ hkc
          · exact ih rest hrest kc₂ hc

/-- Folding the selected keys over a dict none of whose keys recurs among
the contributed column headers appends the columns in selection order. -/
theorem tableFold_append (models : List (String × Yaml)) (sel : List String) :
    ∀ (cols data : List (Scalar × List Yaml)),
      selColumns models sel = some cols →
      (∀ kc ∈ cols, kc.1 ∉ data.map Prod.fst) →
      (cols.map Prod.fst).Nodup →
      tableFold models data sel = some (data ++ cols) := by
  induction sel with
  | nil =>
    intro cols data h _ _
    simp only [selColumns, Option.some.injEq] at h
    subst h
    simp [tableFold]
  | cons k ks ih =>
    intro cols data h hdis hnd
    simp only [selColumns] at h
    split at h
    next => exact absurd h (by simp)
    next m hm =>
      split at h
      next => exact absurd h (by simp)
      next kc hkc =>
        split at h
        next => exact absurd h (by simp)
        next rest hrest =>
          cases h
          have hstep : tableStep models data k = some (dictInsert kc.1 kc.2 data) := by
            simp [tableStep, hm, hkc]
          have hins : dictInsert kc.1 kc.2 data = data ++ [kc] := by
            simpa using dictInsert_notMem kc.1 kc.2 data (hdis kc (by simp))
          have hnd0 : kc.1 ∉ rest.map Prod.fst ∧ (rest.map Prod.fst).Nodup :=
            List.nodup_cons.mp (by simpa using hnd)
          have hdis2 : ∀ kc₂ ∈ rest, kc₂.1 ∉ (data ++ [kc]).map Prod.fst := by
            intro kc₂ hm2
            simp only [List.map_append, List.mem_append, not_or]
            refine ⟨hdis kc₂ (by simp [hm2]), ?_⟩
            simp only [List.map_cons, List.map_nil, List.mem_singleton]
            intro he
            exact hnd0.1 (he ▸ List.mem_map_of_mem Prod.fst hm2)
          have htail := ih rest (data ++ [kc]) hrest hdis2 hnd0.2
          simp only [tableFold, hstep, hins, htail]
          simp

/-- Claim C7 (amended): for selected model keys that each resolve to a
record whose label headers are pairwise distinct and distinct from
"Dimension", the comparison table is exactly the Dimension column followed
by one column per selected model in selection order; every column has one
entry per dimension of the fixed dimension list, in that order, and a
column entry is the value the dimensions mapping of the model gives that
dimension, with the dash placeholder when the dimension is absent. Models
sharing one label (or labelled "Dimension") collapse into one dict slot, so
the hypotheses exclude that; see the counterexample. -/
theorem modelTable_spec (models : List (String × Yaml)) (sel : List String)
    (cols : List (Scalar × List Yaml))
    (hcols : selColumns models sel = some cols)
    (hnd : ((dimColumn :: cols).map Prod.fst).Nodup) :
    modelTable models sel = some (dimColumn :: cols) ∧
    cols.length = sel.length ∧
    (∀ kc ∈ dimColumn :: cols, kc.2.length = dimsList.length) ∧
    (∀ (k : String) (m : Yaml) (kvs : List (String × Yaml)) (lbl : Yaml) (key : Scalar),
      pyGet m "dimensions" (Yaml.ymap []) = some (Yaml.ymap kvs) →
      pyGet m "label" (Yaml.ystr k) = some lbl →
      toKey lbl = some key →
      modelColumn k m = some (key, dimsList.map fun d => dictGet kvs d (Yaml.ystr "—"))) := by
  have hnd1 : dimColumn.1 ∉ cols.map Prod.fst ∧ (cols.map Prod.fst).Nodup :=
    List.nodup_cons.mp (by simpa using hnd)
  refine ⟨?_, selColumns_length models sel cols hcols, ?_, ?_⟩
  · have hdis : ∀ kc ∈ cols, kc.1 ∉ [dimColumn].map Prod.fst := by
      intro kc hkc
      simp only [List.map_cons, List.map_nil, List.mem_singleton]
      intro he
      exact hnd1.1 (he ▸ List.mem_map_of_mem Prod.fst hkc)
    simpa [modelTable] using tableFold_append models sel cols [dimColumn] hcols hdis hnd1.2
  · intro kc hkc
    rcases List.mem_cons.mp hkc with hc | hc
    · subst hc
      simp [dimColumn]
    · exact selColumns_colLengths models sel cols hcols kc hc
  · intro k m kvs lbl key hdd hlbl hkey
    simp [modelColumn, hdd, hlbl, hkey, colFor_map]

/-- Claim C7 counterexample input: two models sharing the label given to
the column header. -/
def modelsDup : List (String × Yaml) :=
  [("m1", Yaml.ymap [("label", Yaml.ystr "Dual Process")]),
   ("m2", Yaml.ymap [("label", Yaml.ystr "Dual Process"),
     ("dimensions", Yaml.ymap [("conflict", Yaml.ystr "central")])])]

/-- Claim C7 counterexample: with two selected models sharing one label,
the table holds only two columns (Dimension plus one shared column), not
the claimed one column per selected model (which would give three). -/
theorem modelTable_duplicate_labels :
    (modelTable modelsDup ["m1", "m2"]).map List.length = some 2 ∧
    (modelTable modelsDup ["m1", "m2"]).map List.length ≠ some 3 := by
  refine ⟨rfl, ?_⟩
  intro h
  exact absurd ((rfl : (modelTable modelsDup ["m1", "m2"]).map List.length = some 2).symm.trans h)
    (by decide)

/-- Claim C7 witness input: two well-formed models with distinct labels. -/
def modelsW : List (String × Yaml) :=
  [("ego-depletion", Yaml.ymap [("label", Yaml.ystr "Strength Model"),
     ("dimensions", Yaml.ymap [("conflict", Yaml.ystr "resource depletion")])]),
   ("process-model", Yaml.ymap [])]

/-- The columns the witness selection contributes. -/
def colsW : List (Scalar × List Yaml) :=
  [(Scalar.sstr "Strength Model",
    [Yaml.ystr "—", Yaml.ystr "resource depletion", Yaml.ystr "—", Yaml.ystr "—"]),
   (Scalar.sstr "process-model",
    [Yaml.ystr "—", Yaml.ystr "—", Yaml.ystr "—", Yaml.ystr "—"])]

/-- Every resolved strength lies in [0,3]. -/
theorem strengthLevel_le3 (v : Yaml) : strengthLevel v ≤ 3 := by
  cases v <;> simp only [strengthLevel] <;> (repeat' split) <;> omega

/-- The empty needle occurs in every hay sequence. -/
theorem hasSub_nil (hay : List Char) : hasSub [] hay = true := by
  cases hay <;> simp [hasSub, leadMatch, List.isEmpty]

/-- The empty query is a case-insensitive substring of every string. -/
theorem lcContains_empty (hay : String) : lcContains hay "" = true := by
  have h0 : ("" : String).data.map Char.toLower = ([] : List Char) := rfl
  rw [lcContains, h0, hasSub_nil]

/-- Every construct record matches the empty query. -/
theorem matchesQuery_empty (k : String) (c : Yaml) : matchesQuery "" k c = true := by
  simp [matchesQuery, lcContains_empty]

/-- Claim C3: for every construct key present in the knowledge base, the
component vector is one integer per taxonomy dimension in taxonomy order,
each in [0,3]; a dimension missing from the components mapping resolves to
0, strength labels resolve case-insensitively (Low to 1, MEDIUM to 2,
strong to 3), any unrecognized string resolves to 0, and any out-of-range
or non-numeric value resolves to 0. -/
theorem componentVector_spec (taxon : List String) (constructs : List (String × Yaml))
    (key : String) (c : Yaml) (hk : assoc key constructs = some c) :
    componentVectorKb taxon constructs key = some (componentVector taxon c) ∧
    (componentVector taxon c).length = taxon.length ∧
    (∀ x ∈ componentVector taxon c, x ≤ 3) ∧
    (∀ i (h : i < taxon.length),
      (componentVector taxon c).get ⟨i, by simpa [componentVector] using h⟩ =
        match assoc (taxon.get ⟨i, h⟩) (componentsOf c) with
        | some v => strengthLevel v
        | none => 0) ∧
    strengthLevel (Yaml.ystr "Low") = 1 ∧
    strengthLevel (Yaml.ystr "MEDIUM") = 2 ∧
    strengthLevel (Yaml.ystr "strong") = 3 ∧
    (∀ s : String, s.data.map Char.toLower ≠ "low".data →
      s.data.map Char.toLower ≠ "medium".data →
      s.data.map Char.toLower ≠ "strong".data → strengthLevel (Yaml.ystr s) = 0) ∧
    (∀ n : Int, (n < 0 ∨ 3 < n) → strengthLevel (Yaml.yint n) = 0) ∧
    strengthLevel Yaml.ynull = 0 ∧
    (∀ b, strengthLevel (Yaml.ybool b) = 0) ∧
    (∀ xs, strengthLevel (Yaml.ylist xs) = 0) ∧
    (∀ kvs, strengthLevel (Yaml.ymap kvs) = 0) := by
  refine ⟨?_, ?_, ?_, ?_, by decide, by decide, by decide, ?_, ?_, rfl, fun b => rfl,
    fun xs => rfl, fun kvs => rfl⟩
  · simp [componentVectorKb, hk]
  · simp [componentVector]
  · intro x hx
    simp only [componentVector, List.mem_map] at hx
    obtain ⟨d, _, hd⟩ := hx
    subst hd
    split
    · exact strengthLevel_le3 _
    · omega
  · intro i h
    simp [componentVector, List.getElem_map]
  · intro s h1 h2 h3
    simp [strengthLevel, h1, h2, h3]
  · intro n hn
    simp only [strengthLevel]
    split
    next hc => omega
    next => rfl

/-- Claim C3 witness input: one construct with one strong component. -/
def constructsC : List (String × Yaml) :=
  [("self-control",
    Yaml.ymap [("components", Yaml.ymap [("inhibition", Yaml.ystr "strong")])])]

/-- Witness for claim C3 at a concrete taxonomy and construct. -/
theorem componentVector_spec_witness :
    componentVectorKb ["inhibition", "updating"] constructsC "self-control" = some [3, 0] ∧
    strengthLevel (Yaml.ystr "MEDIUM") = 2 := by
  have h := componentVector_spec ["inhibition", "updating"] constructsC "self-control"
    (Yaml.ymap [("components", Yaml.ymap [("inhibition", Yaml.ystr "strong")])]) rfl
  exact ⟨h.1.trans (by decide), h.2.2.2.2.2.1⟩

/-- Claim C5: for every query, the search result is an order-preserving
subsequence of the construct keys, equal to the filter of the key sequence
by the label-or-synonym case-insensitive substring match, and the empty
query returns exactly the full key sequence in order. The keys of the
constructs mapping are unique, which the Nodup hypothesis records. -/
theorem searchConstructs_spec (constructs : List (String × Yaml)) (q : String)
    (hnd : (allConstructKeys constructs).Nodup) :
    List.Sublist (searchConstructs constructs q) (allConstructKeys constructs) ∧
    searchConstructs constructs q =
      (allConstructKeys constructs).filter (keyMatches constructs q) ∧
    searchConstructs constructs "" = allConstructKeys constructs := by
  refine ⟨?_, ?_, ?_⟩
  · exact (List.filter_sublist constructs).map Prod.fst
  · induction constructs with
    | nil => rfl
    | cons kc rest ih =>
      obtain ⟨k, c⟩ := kc
      have hnd2 : (allConstructKeys rest).Nodup :=
        (List.nodup_cons.mp (by simpa [allConstructKeys] using hnd)).2
      have hkmem : k ∉ rest.map Prod.fst :=
        (List.nodup_cons.mp (by simpa [allConstructKeys] using hnd)).1
      have hhead : keyMatches ((k, c) :: rest) q k = matchesQuery q k c := by
        simp [keyMatches, assoc]
      have htail : ∀ x ∈ rest.map Prod.fst,
          keyMatches ((k, c) :: rest) q x = keyMatches rest q x := by
        intro x hx
        have hne : k ≠ x := fun e => hkmem (e ▸ hx)
        simp [keyMatches, assoc, hne]
      have hfil : (rest.map Prod.fst).filter (keyMatches ((k, c) :: rest) q) =
          (rest.map Prod.fst).filter (keyMatches rest q) :=
        List.filter_congr htail
      have ih2 : (rest.filter fun kc => matchesQuery q kc.1 kc.2).map Prod.fst =
          (rest.map Prod.fst).filter (keyMatches rest q) := by
        simpa [searchConstructs, allConstructKeys] using ih hnd2
      simp only [searchConstructs, allConstructKeys, List.map_cons, List.filter_cons,
        hhead, hfil]
      cases hq : matchesQuery q k c <;> simp [hq, ih2]
  · have hall : ∀ kc ∈ constructs, matchesQuery "" kc.1 kc.2 = true :=
      fun kc _ => matchesQuery_empty kc.1 kc.2
    rw [searchConstructs, List.filter_congr hall]
    simp [allConstructKeys]

/-- Claim C5 witness input: two constructs with labels and a synonym. -/
def constructsS : List (String × Yaml) :=
  [("self-control", Yaml.ymap [("label", Yaml.ystr "Self-Control"),
     ("synonyms", Yaml.ylist [Yaml.ystr "willpower"])]),
   ("grit", Yaml.ymap [("label", Yaml.ystr "Grit")])]

/-- Witness for claim C5 at a concrete constructs collection and an
uppercase query. -/
theorem searchConstructs_spec_witness :
    List.Sublist (searchConstructs constructsS "SELF") (allConstructKeys constructsS) ∧
    searchConstructs constructsS "SELF" =
      (allConstructKeys constructsS).filter (keyMatches constructsS "SELF") ∧
    searchConstructs constructsS "" = allConstructKeys constructsS :=
  searchConstructs_spec constructsS "SELF" (by decide)

/-- Claim C6: the advisor output is exactly the messages of the rules whose
two keys are both selected, in rule-declaration order; the selection of
self-control and grit yields exactly the one message of that pair, and a
selection firing no pair yields the empty sequence. -/
theorem overlapWarnings_spec (sel : List String) :
    overlapWarnings sel = overlapRules.filterMap (fun r =>
      if sel.contains r.1.1 && sel.contains r.1.2 then some r.2 else none) ∧
    overlapWarnings ["self-control", "grit"] = [jangleMsgSCGrit] ∧
    (¬("self-control" ∈ sel ∧ "grit" ∈ sel) →
      ¬("self-control" ∈ sel ∧ "self-regulation" ∈ sel) →
      ¬("executive-function" ∈ sel ∧ "self-control" ∈ sel) →
      overlapWarnings sel = []) := by
  refine ⟨?_, by decide, ?_⟩
  · by_cases h1 : "self-control" ∈ sel <;> by_cases h2 : "grit" ∈ sel <;>
      by_cases h3 : "self-regulation" ∈ sel <;> by_cases h4 : "executive-function" ∈ sel <;>
      simp [overlapWarnings, overlapRules, h1, h2, h3, h4]
  · intro n1 n2 n3
    simp [overlapWarnings, n1, n2, n3]

/-- Witness for claim C6 at a selection firing no rule. -/
theorem overlapWarnings_spec_witness :
    overlapWarnings ["perseverance"] = overlapRules.filterMap (fun r =>
      if List.contains ["perseverance"] r.1.1 && List.contains ["perseverance"] r.1.2
        then some r.2 else none) ∧
    overlapWarnings ["self-control", "grit"] = [jangleMsgSCGrit] ∧
    overlapWarnings ["perseverance"] = [] := by
  have h := overlapWarnings_spec ["perseverance"]
  refine ⟨h.1, h.2.1, h.2.2 ?_ ?_ ?_⟩ <;> simp

/-- One interaction leaves the loaded state unchanged. -/
theorem runAction_snd (kb : LoadedKb) (a : UserAction) : (runAction kb a).2 = kb := by
  cases a <;> rfl

/-- Claim C9: the loaded knowledge base is immutable for the session.
Every user-facing operation, the construct card, the browse table, the
domain filter, the model comparison table and its CSV export, is a pure
derivation over the loaded views, and any sequence of interactions leaves
the loaded state identical. -/
theorem session_immutable (kb : LoadedKb) (a : UserAction) (acts : List UserAction) :
    (runAction kb a).2 = kb ∧ runSession kb acts = kb := by
  refine ⟨runAction_snd kb a, ?_⟩
  induction acts generalizing kb with
  | nil => rfl
  | cons b rest ih => rw [runSession, runAction_snd, ih]

/-- Witness for the amended claim C7 at a concrete model collection and
selection. -/
theorem modelTable_spec_witness :
    modelTable modelsW ["ego-depletion", "process-model"] = some (dimColumn :: colsW) ∧
    colsW.length = (["ego-depletion", "process-model"] : List String).length ∧
    modelColumn "ego-depletion" (Yaml.ymap [("label", Yaml.ystr "Strength Model"),
      ("dimensions", Yaml.ymap [("conflict", Yaml.ystr "resource depletion")])]) =
      some (Scalar.sstr "Strength Model",
        dimsList.map fun d =>
          dictGet [("conflict", Yaml.ystr "resource depletion")] d (Yaml.ystr "—")) := by
  have h := modelTable_spec modelsW ["ego-depletion", "process-model"] colsW rfl (by decide)
  exact ⟨h.1, h.2.1, h.2.2.2 "ego-depletion" _ [("conflict", Yaml.ystr "resource depletion")]
    (Yaml.ystr "Strength Model") (Scalar.sstr "Strength Model") rfl rfl rfl⟩

end ConstructAtlas
